/-
Verification of the httpmock library (call-sequencing policies, the
matching/verification engine, the client-side transport and the
server-side handler helpers) against its specification.

Modelling conventions:
* Go byte slices are modelled as the `String` of their bytes (`Bytes`);
  `slices.Equal` on two byte slices coincides with string equality and
  `string(b)` is the identity under this encoding.  The only place real
  numeric bytes matter is the Base64 body, which stores a `List Nat`.
* Go maps `url.Values` / `http.Header` are modelled as association lists
  (`Values`) from a key to its ordered value list; a missing key yields
  `[]`, matching the Go zero value.  Header keys are assumed to be in
  canonical form already (the test data uses canonical keys).
* `json.Marshal` of an arbitrary Go value is external; a JSON body is
  therefore modelled as carrying the outcome of marshalling its stored
  value (`MarshalResult`): either the encoded bytes or the error message.
* Go run-time panics (out-of-range slice index, explicit `panic`) are
  modelled by the `PanicOr` monad-like result type.
* The repository holds two snapshots of the package: the client-side
  transport (`httpmock.go`, with `errorfPrefixTestReporter`) lives in the
  root `Httpmock` namespace, the server-side snapshot (`server.go`,
  `body.go`, `test_reporter.go`) in `Httpmock.Server`.
-/
import Mathlib

namespace Httpmock

/-- Go `[]byte`, modelled as the string of its bytes. -/
abbrev Bytes := String

/-- Outcome of `json.Marshal` on the value stored in a JSON body. -/
inductive MarshalResult where
  | ok (data : Bytes)
  | err (msg : String)
  deriving DecidableEq

/-- Result of a Go computation that may panic at run time. -/
inductive PanicOr (α : Type) where
  | ok (val : α)
  | panic (msg : String)
  deriving DecidableEq

/-- Model of `url.Values` / `http.Header`: a map from key to ordered value list. -/
abbrev Values := List (String × List String)

/-- Go map indexing `m[key]`: the value list, `[]` when absent. -/
def Values.get (vs : Values) (k : String) : List String :=
  match vs with
  | [] => []
  | (k0, v0) :: rest => if k0 = k then v0 else Values.get rest k

/-- Model of `http.Header.Add`: append one value to the key's list. -/
def Values.add (vs : Values) (k v : String) : Values :=
  match vs with
  | [] => [(k, [v])]
  | (k0, v0) :: rest =>
      if k0 = k then (k0, v0 ++ [v]) :: rest
      else (k0, v0) :: Values.add rest k v

/-- The keys of the map, in iteration order of the model. -/
def Values.keys (vs : Values) : List String := vs.map Prod.fst

/-- Insert a string into an already sorted list (ascending). -/
def insertSorted (x : String) : List String → List String
  | [] => [x]
  | y :: ys => if x ≤ y then x :: y :: ys else y :: insertSorted x ys

/-- Model of `slices.Sort` on strings, as insertion sort. -/
def sortStrings (l : List String) : List String := l.foldr insertSorted []

/-- Model of `strings.Join(values, ",")`. -/
def joinComma (l : List String) : String := String.intercalate "," l

/-- The `Body` interface of `httpmock.go`: `RawBody` or `jsonBody`.
A `jsonBody` carries the outcome of `json.Marshal` on its stored value. -/
inductive Body where
  | RawBody (bytes : Bytes)
  | jsonBody (marshal : MarshalResult)
  deriving DecidableEq

/-- Model of `Body.Bytes() ([]byte, error)` from `httpmock.go`. -/
def Body.Bytes : Body → Except String Bytes
  | .RawBody b => .ok b
  | .jsonBody (.ok data) => .ok data
  | .jsonBody (.err e) => .error e

/-- Model of `url.URL`, restricted to the fields the engine reads: `Path` and the
parsed query (`URL.Query()`). -/
structure URL where
  Path : String
  Query : Values
  deriving DecidableEq

/-- Model of `Input` from `httpmock.go`: the expected request shape. -/
structure Input where
  Method : String
  Body : Option Body
  Header : Values
  URL : Option URL
  deriving DecidableEq

/-- Model of `Response` from `httpmock.go`: the canned reply. -/
structure Response where
  StatusCode : Int
  Body : Option Body
  Header : Values
  deriving DecidableEq

/-- Model of `Call` from `httpmock.go`.  `DoError` carries the injected transport
error's message; `Delay` is the pause in nanoseconds (unused by the
matching logic). -/
structure Call where
  Input : Input
  Response : Response
  DoError : Option String
  Delay : Nat
  deriving DecidableEq

/-- The Go zero value `Call{}`. -/
def Call.empty : Call :=
  { Input := { Method := "", Body := none, Header := [], URL := none },
    Response := { StatusCode := 0, Body := none, Header := [] },
    DoError := none, Delay := 0 }

instance (α β : Type) [DecidableEq α] [DecidableEq β] : DecidableEq (Except α β) :=
  fun a b =>
    match a, b with
    | .ok x, .ok y => decidable_of_iff (x = y) (by simp)
    | .error x, .error y => decidable_of_iff (x = y) (by simp)
    | .ok _, .error _ => .isFalse (by simp)
    | .error _, .ok _ => .isFalse (by simp)

/-- An observed `*http.Request`, restricted to what the engine reads.
`body` is the outcome of fully reading `r.Body` (`none` models a nil
body, which `CompareBody` replaces by an empty reader). -/
structure Request where
  Method : String
  URL : URL
  Body : Option (Except String Bytes)
  Header : Values
  deriving DecidableEq

/-- Model of `sequenceCalls.Call` from `httpmock.go`.  The Go `int` argument is an
`Int`; the index access `s[calledTimes]` panics when the (decremented)
index is negative, which the in-range branch guards only from above. -/
def sequenceCall (s : List Call) (calledTimes : Int) : PanicOr (Call × Bool) :=
  let ct := calledTimes - 1
  if (s.length : Int) ≤ ct then .ok (Call.empty, false)
  else if 0 ≤ ct then .ok (s.getD ct.toNat Call.empty, true)
  else .panic "runtime error: index out of range [-1]"

/-- Model of `sequenceCalls.Done` from `httpmock.go`. -/
def sequenceDone (s : List Call) (calledTimes : Int) : Bool :=
  if s.length = 0 then true
  else calledTimes == (s.length : Int)

/-- Model of `staticCalls.Call` from `httpmock.go`.  Go's `%` on `int` truncates
toward zero (`Int.tmod`); a negative index would panic. -/
def staticCall (s : List Call) (calledTimes : Int) : PanicOr (Call × Bool) :=
  if s.length = 0 then .ok (Call.empty, false)
  else if s.length = 1 ∨ calledTimes = 1 then .ok (s.getD 0 Call.empty, true)
  else
    let index := Int.tmod (calledTimes - 1 + (s.length : Int)) (s.length : Int)
    if 0 ≤ index then .ok (s.getD index.toNat Call.empty, true)
    else .panic "runtime error: index out of range"

/-- Model of `staticCalls.Done` from `httpmock.go`: always true. -/
def staticDone (_ : List Call) (_ : Int) : Bool := true

/-- The `Calls` interface, closed over its two implementations. -/
inductive Calls where
  | sequence (calls : List Call)
  | static (calls : List Call)
  deriving DecidableEq

/-- Dispatch of `Calls.Call`. -/
def Calls.call : Calls → Int → PanicOr (Call × Bool)
  | .sequence s, ct => sequenceCall s ct
  | .static s, ct => staticCall s ct

/-- Dispatch of `Calls.Done`. -/
def Calls.done : Calls → Int → Bool
  | .sequence s, ct => sequenceDone s ct
  | .static s, ct => staticDone s ct

/-- Model of `CompareMethod` from `httpmock.go`: the messages passed to
`t.Errorf`, with the format verbs instantiated. -/
def CompareMethod (requestMethod inputMethod : String) : List String :=
  if requestMethod ≠ inputMethod then
    ["wrong r.Method, expected " ++ inputMethod ++ ", actual " ++ requestMethod]
  else []

/-- Model of `CompareQuery` from `httpmock.go`: expected keys are sorted, then each
expected key's ordered value list is compared with the request's. -/
def CompareQuery (requestQuery inputQuery : Values) : List String :=
  if inputQuery.length = 0 then []
  else
    (sortStrings (Values.keys inputQuery)).map (fun key =>
      let inputQueryKeyValues := Values.get inputQuery key
      let requestQueryKeyValues := Values.get requestQuery key
      if ¬ requestQueryKeyValues = inputQueryKeyValues then
        ["wrong url query values by key " ++ key ++ ", expect [" ++
          joinComma inputQueryKeyValues ++ "], actual [" ++
          joinComma requestQueryKeyValues ++ "]"]
      else []) |>.flatten

/-- Model of `CompareURL` from `httpmock.go`: skipped for a nil expected URL,
otherwise the path check followed by the query check. -/
def CompareURL (requestURL : URL) (inputURL : Option URL) : List String :=
  match inputURL with
  | none => []
  | some input =>
      (if requestURL.Path ≠ input.Path then
        ["wrong url.Path, expected " ++ input.Path ++ ", actual " ++ requestURL.Path]
      else [])
      ++ CompareQuery requestURL.Query input.Query

/-- Model of `CompareBody` from `httpmock.go`.  A nil request body reads as empty;
a read failure or an expected-body encoding failure is itself reported
and short-circuits only this check. -/
def CompareBody (requestBody : Option (Except String Bytes))
    (inputBody : Option Body) : List String :=
  match requestBody.getD (.ok "") with
  | .error e => ["read body from request, " ++ e]
  | .ok bodyBytes =>
      match (inputBody.getD (Body.RawBody "")).Bytes with
      | .error e => ["read input body, " ++ e]
      | .ok inputBodyBytes =>
          if ¬ inputBodyBytes = bodyBytes then
            ["body not equal, expected " ++ inputBodyBytes ++ " actual " ++ bodyBytes]
          else []

/-- Model of `CompareHeader` from `httpmock.go`: expected keys sorted, each key's
full ordered value list compared via `Header.Values`. -/
def CompareHeader (requestHeader inputHeader : Values) : List String :=
  (sortStrings (Values.keys inputHeader)).map (fun key =>
    let requestHeaderKeyValues := Values.get requestHeader key
    let values := Values.get inputHeader key
    if ¬ requestHeaderKeyValues = values then
      ["wrong header values by key " ++ key ++ ", expect [" ++
        joinComma values ++ "], actual [" ++
        joinComma requestHeaderKeyValues ++ "]"]
    else []) |>.flatten

/-- Model of `CompareInput` from `httpmock.go`: all four checks run
unconditionally; their reports accumulate in order. -/
def CompareInput (r : Request) (input : Input) : List String :=
  CompareMethod r.Method input.Method
  ++ CompareURL r.URL input.URL
  ++ CompareBody r.Body input.Body
  ++ CompareHeader r.Header input.Header

/-- An `http.ResponseWriter` / recorded `*http.Response`. -/
structure Resp where
  statusCode : Int
  header : Values
  body : Bytes
  deriving DecidableEq

/-- A fresh `httptest.NewRecorder()` before any write. -/
def newRecorder : Resp := { statusCode := 0, header := [], body := "" }

/-- The degenerate `&http.Response{}` returned on a structural failure. -/
def emptyHTTPResponse : Resp := { statusCode := 0, header := [], body := "" }

/-- Model of `WriteHeader` from `httpmock.go`: every header entry is added onto
`w.Header()` in key-then-value order, and a zero status code defaults to
200 before `w.WriteHeader`. -/
def WriteHeader (w : Resp) (header : Values) (statusCode : Int) : Resp :=
  let w :=
    header.foldl (fun w kv =>
      kv.2.foldl (fun w value => { w with header := w.header.add kv.1 value }) w) w
  let statusCode := if statusCode = 0 then 200 else statusCode
  { w with statusCode := statusCode }

/-- Model of `WriteBody` from `httpmock.go`.  A nil body is replaced by
`RawBody{}`; an encoding failure is returned as the wrapped error message
(the recorder's own `Write` never fails). -/
def WriteBody (w : Resp) (body : Option Body) : Resp × Option String :=
  match (body.getD (Body.RawBody "")).Bytes with
  | .error e => (w, some ("get response body bytes, unexpected error: " ++ e))
  | .ok bs => ({ w with body := w.body ++ bs }, none)

/-- Model of `WriteResponse` from `httpmock.go`. -/
def WriteResponse (w : Resp) (response : Response) : Resp × Option String :=
  let w := WriteHeader w response.Header response.StatusCode
  WriteBody w response.Body

/-- One message handed to the underlying reporting sink. -/
inductive Report where
  | errorf (msg : String)
  | fatalf (msg : String)
  deriving DecidableEq

/-- Model of `fmt.Sprintf("%d call, ", number)` from `errorfTestReporterWithCallNumber`. -/
def callNumberMark (number : Int) : String := toString number ++ " call, "

/-- Model of `errorfPrefixTestReporter` from the client-side reporter file: only
`Errorf` goes through the wrapping; `Fatalf` is promoted from the
embedded reporter and delivers its message unchanged. -/
def applyErrorfMark (mark : String) : Report → Report
  | .errorf m => .errorf (mark ++ m)
  | .fatalf m => .fatalf m

/-- Model of `HandleCallCompareInput` from `httpmock.go`: run the matcher, write
the canned response, report a write error via `Errorf`.  Returns the
reports in emission order and the recorded response. -/
def HandleCallCompareInput (r : Request) (call : Call) : List Report × Resp :=
  let mismatches := (CompareInput r call.Input).map Report.errorf
  let written := WriteResponse newRecorder call.Response
  let writeReports := match written.2 with
    | some e => [Report.errorf e]
    | none => []
  (mismatches ++ writeReports, written.1)

/-- Observable outcome of one `transport.RoundTrip`: the incremented
counter, the messages delivered to the underlying sink, and the returned
response/error pair. -/
structure RoundTripOut where
  calledTimes : Int
  reports : List Report
  response : Option Resp
  error : Option String
  deriving DecidableEq

/-- Model of `transport.RoundTrip` from `httpmock.go`, for a transport built by
`NewTransport(t, calls, HandleCallCompareInput)`: increment the counter,
wrap the sink so `Errorf` carries the call-number text, ask the policy
for the call, fail fatally (returning `&http.Response{}`) when none is
found, return the injected `DoError` when present, otherwise run the
handler on a fresh recorder.  `reports` is the list of messages the
underlying sink receives. -/
def RoundTrip (calls : Calls) (calledTimes0 : Int) (r : Request) :
    PanicOr RoundTripOut :=
  let calledTimes := calledTimes0 + 1
  match Calls.call calls calledTimes with
  | .panic m => .panic m
  | .ok (call, found) =>
      if !found then
        .ok { calledTimes := calledTimes,
              reports := [.fatalf "no expected calls left"],
              response := some emptyHTTPResponse, error := none }
      else
        match call.DoError with
        | some e =>
            .ok { calledTimes := calledTimes, reports := [],
                  response := none, error := some e }
        | none =>
            let handled := HandleCallCompareInput r call
            .ok { calledTimes := calledTimes,
                  reports := handled.1.map (applyErrorfMark (callNumberMark calledTimes)),
                  response := some handled.2, error := none }

namespace Server

/-- Model of `base64.StdEncoding.EncodedLen(n) = (n + 2) / 3 * 4`. -/
def encodedLen (n : Nat) : Nat := (n + 2) / 3 * 4

/-- The standard Base64 alphabet, as a character: `A-Z a-z 0-9 + /`. -/
def b64Char (i : Nat) : Char :=
  if i < 26 then Char.ofNat (65 + i)
  else if i < 52 then Char.ofNat (97 + (i - 26))
  else if i < 62 then Char.ofNat (48 + (i - 52))
  else if i = 62 then '+'
  else '/'

/-- Standard Base64 of a byte list, with `=` padding, as the list of
output characters. -/
def base64Chars : List Nat → List Char
  | [] => []
  | [a] => [b64Char (a / 4 % 64), b64Char (a % 4 * 16), '=', '=']
  | [a, b] => [b64Char (a / 4 % 64), b64Char ((a % 4 * 16 + b / 16) % 64),
               b64Char (b % 16 * 4), '=']
  | a :: b :: c :: rest =>
      b64Char (a / 4 % 64) :: b64Char ((a % 4 * 16 + b / 16) % 64) ::
      b64Char ((b % 16 * 4 + c / 64) % 64) :: b64Char (c % 64) ::
      base64Chars rest

/-- Standard Base64 encoding of a byte list, as the string of its output
bytes. -/
def base64Encode (src : List Nat) : Bytes := String.mk (base64Chars src)

/-- Model of `base64.StdEncoding.Encode(dst, src)` where `dst` has length
`dstLen`: a no-op for empty `src`; otherwise it writes
`encodedLen src.length` bytes into `dst`, panicking when `dst` is too
short (Go's bounds-checked slice writes). -/
def stdEncodingEncode (dstLen : Nat) (src : List Nat) : PanicOr Bytes :=
  if src.length = 0 then .ok (String.mk (List.replicate dstLen (Char.ofNat 0)))
  else if encodedLen src.length ≤ dstLen then
    .ok (base64Encode src ++
      String.mk (List.replicate (dstLen - encodedLen src.length) (Char.ofNat 0)))
  else .panic "runtime error: index out of range"

/-- The `Body` interface of `body.go` (server-side snapshot):
`RawBody`, `NoBody`, `JSON`, `Base64`.  A `JSON` body carries the outcome
of `json.Marshal(j.Input)`; a `Base64` body stores its raw bytes. -/
inductive Body where
  | RawBody (bytes : Bytes)
  | NoBody
  | JSON (marshal : MarshalResult)
  | Base64 (raw : List Nat)
  deriving DecidableEq

/-- Model of `Body.Bytes() []byte` from `body.go`.  `JSON.Bytes` panics on a
marshal failure; `Base64.Bytes` allocates `dst := make([]byte, len(Raw))`
and then calls `StdEncoding.Encode(dst, Raw)`. -/
def Body.Bytes : Body → PanicOr Bytes
  | .RawBody b => .ok b
  | .NoBody => .ok ""
  | .JSON (.ok data) => .ok data
  | .JSON (.err e) => .panic ("marshal json input, " ++ e)
  | .Base64 raw => stdEncodingEncode raw.length raw

/-- Model of `Response` from `server.go`. -/
structure Response where
  StatusCode : Int
  Body : Option Body
  Header : Values
  deriving DecidableEq

/-- Model of `Input` from `server.go` (no `Method` field in this snapshot). -/
structure Input where
  Body : Option Body
  Header : Values
  URL : Option URL
  deriving DecidableEq

/-- Model of `Call` from `server.go` (no `DoError` in this snapshot). -/
structure Call where
  Input : Input
  Response : Response
  Delay : Nat
  deriving DecidableEq

instance : Inhabited Call :=
  ⟨{ Input := { Body := none, Header := [], URL := none },
     Response := { StatusCode := 0, Body := none, Header := [] },
     Delay := 0 }⟩

/-- Model of `staticHandler.nextCall` from `server.go`.  `NewStaticServer` only
builds a `staticHandler` for a non-empty call list, so the length is at
least 1 wherever this runs; Go's `%` truncates toward zero
(`Int.tmod`). -/
def nextCall (calls : List Call) (calledTimes : Int) : Call :=
  if calls.length = 1 ∨ calledTimes = 1 then calls.getD 0 default
  else
    let index := Int.tmod calledTimes (calls.length : Int)
    calls.getD index.toNat default

/-- Model of `compareBody` from `server.go`: the request body is read fully (a
read failure is reported and ends the check); an absent expected body is
`NoBody`; `inputBody.Bytes()` has no error return in this snapshot, so a
panic inside it propagates. -/
def compareBody (requestBody : Except String Bytes) (inputBody : Option Body) :
    PanicOr (List String) :=
  match requestBody with
  | .error e => .ok ["read body from request, " ++ e]
  | .ok bodyBytes =>
      match (inputBody.getD Body.NoBody).Bytes with
      | .panic m => .panic m
      | .ok inputBodyBytes =>
          .ok (if ¬ inputBodyBytes = bodyBytes then
            ["body not equal,\nexpected " ++ inputBodyBytes ++ "\nactual " ++ bodyBytes]
          else [])

/-- Model of `writeResponseHeader` from `server.go`.  The copy loop calls
`header.Add(key, value)` — on the response's own header map, not on
`w.Header()` — over the snapshot of each key's value list, so each list
is appended to itself; the function returns the writer (with only the
status code set) together with the mutated response header map. -/
def writeResponseHeader (w : Resp) (response : Response) : Resp × Values :=
  let header := response.Header
  let header := header.map (fun kv => (kv.1, kv.2 ++ kv.2))
  let statusCode := if response.StatusCode = 0 then 200 else response.StatusCode
  ({ w with statusCode := statusCode }, header)

end Server

/-- The spec's running example of an expected request shape: method PUT,
path `/any/targt`, query `key=value`, body `HelloWorld!`, header
`X-My-Header: Hello`. -/
def demoInput : Input :=
  { Method := "PUT",
    Body := some (.RawBody "HelloWorld!"),
    Header := [("X-My-Header", ["Hello"])],
    URL := some { Path := "/any/targt", Query := [("key", ["value"])] } }

/-- The spec's running example of an actual request: POST to
`/any/target` with no query, body `Hello World!`, no headers. -/
def demoRequest : Request :=
  { Method := "POST",
    URL := { Path := "/any/target", Query := [] },
    Body := some (.ok "Hello World!"),
    Header := [] }

/-- A call expecting the example input, with an all-default response. -/
def demoCall : Call :=
  { Call.empty with Input := demoInput }

/-- Two distinguishable calls for exercising the cyclic policies. -/
def demoCallA : Call :=
  { Call.empty with Input := { Call.empty.Input with Method := "GET" } }

/-- Second distinguishable call for exercising the cyclic policies. -/
def demoCallB : Call :=
  { Call.empty with Input := { Call.empty.Input with Method := "PUT" } }

/-- Two distinguishable server-side calls (distinct status codes). -/
def demoServerCallA : Server.Call :=
  { (default : Server.Call) with
    Response := { StatusCode := 201, Body := none, Header := [] } }

/-- Second distinguishable server-side call. -/
def demoServerCallB : Server.Call :=
  { (default : Server.Call) with
    Response := { StatusCode := 202, Body := none, Header := [] } }

/-- Claim C1: for a sequential policy over a list of `L` calls,
invocations `1 ≤ i ≤ L` find the element at index `i - 1` with
`found = true`, invocations `i > L` return `found = false`, and `Done n`
holds exactly when `n = L`, except that the empty list is done for every
`n`. -/
theorem sequence_policy_correct (s : List Call) (i n : Int) (hi : 1 ≤ i) :
    (i ≤ (s.length : Int) →
      sequenceCall s i = PanicOr.ok (s.getD (i - 1).toNat Call.empty, true) ∧
        (i - 1).toNat < s.length)
  ∧ ((s.length : Int) < i → sequenceCall s i = PanicOr.ok (Call.empty, false))
  ∧ (sequenceDone s n = true ↔ (n = (s.length : Int) ∨ s = [])) := by
  refine ⟨?_, ?_, ?_⟩
  · intro hle
    have h1 : ¬ ((s.length : Int) ≤ i - 1) := by omega
    have h2 : (0 : Int) ≤ i - 1 := by omega
    refine ⟨?_, by omega⟩
    simp [sequenceCall, h1, h2]
  · intro hgt
    have h1 : (s.length : Int) ≤ i - 1 := by omega
    simp [sequenceCall, h1]
  · by_cases h : s.length = 0
    · have hs : s = [] := List.length_eq_zero.mp h
      simp [sequenceDone, h, hs]
    · have hs : s ≠ [] := by
        intro e
        exact h (by simp [e])
      simp [sequenceDone, h, hs]

/-- Witness for C1 at a one-element sequence and its first invocation. -/
theorem sequence_policy_correct_witness :
    sequenceCall [Call.empty] 1 = PanicOr.ok (Call.empty, true) ∧
      sequenceDone [Call.empty] 1 = true := by
  have h := sequence_policy_correct [Call.empty] 1 1 (by decide)
  exact ⟨(h.1 (by decide)).1, h.2.2.mpr (Or.inl (by decide))⟩

/-- Claim C8: the empty static (cyclic) policy never finds a call for any
invocation number — the empty-list guard returns before the modulo, so
no division by zero (and no panic) occurs — and `Done` is always true. -/
theorem static_empty_never_found (i n : Int) :
    staticCall [] i = PanicOr.ok (Call.empty, false) ∧ staticDone [] n = true :=
  ⟨rfl, rfl⟩

/-- Claim C10: on a non-empty sequence, `Call i` with `i ≥ 1` cannot
panic (the index `i - 1` is either within the list or the not-found
branch fires first), while `Call 0` indexes the slice at `-1` and
panics; the documented precondition `calledTimes ≥ 1` is required. -/
theorem sequence_call_needs_positive_counter (s : List Call) (i : Int)
    (hs : s ≠ []) :
    (1 ≤ i → ∃ res, sequenceCall s i = PanicOr.ok res)
  ∧ sequenceCall s 0 = PanicOr.panic "runtime error: index out of range [-1]" := by
  constructor
  · intro hi
    by_cases h1 : (s.length : Int) ≤ i - 1
    · exact ⟨(Call.empty, false), by simp [sequenceCall, h1]⟩
    · have h2 : (0 : Int) ≤ i - 1 := by omega
      exact ⟨(s.getD (i - 1).toNat Call.empty, true), by simp [sequenceCall, h1, h2]⟩
  · have hlen : 0 < s.length := List.length_pos.mpr hs
    have h1 : ¬ ((s.length : Int) ≤ 0 - 1) := by omega
    have h2 : ¬ ((0 : Int) ≤ 0 - 1) := by omega
    simp only [sequenceCall]
    rw [if_neg h1, if_neg h2]

/-- Witness for C10 at a one-element sequence. -/
theorem sequence_call_needs_positive_counter_witness :
    sequenceCall [demoCallA] 0 = PanicOr.panic "runtime error: index out of range [-1]" :=
  (sequence_call_needs_positive_counter [demoCallA] 1 (by decide)).2

/-- Claim C2, evaluated at its failing input: the client-side static
policy answers invocation 2 over the two-element list `[A, B]` with
element `(2 - 1) % 2 = 1` (that is, `B`) and is always done, but the
server-side `staticHandler.nextCall` answers the same invocation with
`calls[2 % 2] = calls[0] = A`, repeating invocation 1's element instead
of cycling in list order. -/
theorem static_cycle_server_divergence :
    staticCall [demoCallA, demoCallB] 2 = PanicOr.ok (demoCallB, true)
  ∧ staticDone [demoCallA, demoCallB] 7 = true
  ∧ Server.nextCall [demoServerCallA, demoServerCallB] 2 = demoServerCallA
  ∧ demoServerCallA ≠ demoServerCallB :=
  ⟨by decide, rfl, by decide, by decide⟩

/-- Claim C6, evaluated at its failing input: the client-side
`WriteHeader` copies every header entry onto the response writer and
turns status 0 into 200, but the server-side `writeResponseHeader` adds
each entry back onto the response's own header map (doubling its value
lists) and leaves the writer's headers untouched. -/
theorem response_header_copy_divergence :
    WriteHeader newRecorder [("X-My-Header", ["Hello"])] 0 =
      { statusCode := 200, header := [("X-My-Header", ["Hello"])], body := "" }
  ∧ WriteHeader newRecorder [("A", ["x", "y"]), ("B", ["z"])] 404 =
      { statusCode := 404, header := [("A", ["x", "y"]), ("B", ["z"])], body := "" }
  ∧ Server.writeResponseHeader newRecorder
      { StatusCode := 0, Body := none, Header := [("X-My-Header", ["Hello"])] } =
      ({ statusCode := 200, header := [], body := "" },
        [("X-My-Header", ["Hello", "Hello"])]) :=
  ⟨by decide, by decide, by decide⟩

/-- Counterexample to claim C7: on the server-side snapshot, evaluating a
JSON body whose stored value fails to marshal — here inside the
expected-body comparison — panics instead of reporting through the
sink. -/
theorem json_marshal_failure_panics :
    Server.compareBody (Except.ok "")
        (some (Server.Body.JSON (MarshalResult.err "json: unsupported type: chan int")))
      = PanicOr.panic "marshal json input, json: unsupported type: chan int" := by
  decide

/-- Claim C7 as amended: on the client side a non-serializable JSON body
yields an encoding error that `CompareBody` and `WriteBody` turn into
non-fatal reports embedding the cause's message, without panicking; the
server-side `JSON.Bytes` instead panics with the cause's message. -/
theorem json_marshal_failure_reported (e : String) (bs : Bytes) (w : Resp) :
    CompareBody (some (Except.ok bs)) (some (Body.jsonBody (MarshalResult.err e)))
      = ["read input body, " ++ e]
  ∧ WriteBody w (some (Body.jsonBody (MarshalResult.err e)))
      = (w, some ("get response body bytes, unexpected error: " ++ e))
  ∧ Server.Body.Bytes (Server.Body.JSON (MarshalResult.err e))
      = PanicOr.panic ("marshal json input, " ++ e) :=
  ⟨rfl, rfl, rfl⟩

/-- Claim C9, evaluated at its failing input: a Raw body returns its
stored bytes unchanged on both snapshots, but `Base64.Bytes` sizes its
destination as `len(Raw)` instead of `EncodedLen(len(Raw))`, so encoding
the one-byte sequence `[65]` panics instead of returning the standard
encoding `QQ==`. -/
theorem base64_bytes_divergence :
    Server.Body.Bytes (Server.Body.Base64 [65])
      = PanicOr.panic "runtime error: index out of range"
  ∧ Server.base64Encode [65] = "QQ=="
  ∧ (∀ bs : Bytes, Body.Bytes (Body.RawBody bs) = Except.ok bs)
  ∧ (∀ bs : Bytes, Server.Body.Bytes (Server.Body.RawBody bs) = PanicOr.ok bs) :=
  ⟨by decide, by decide, fun _ => rfl, fun _ => rfl⟩

/-- Claim C3: when the sequencing policy finds no call for the current
invocation, `RoundTrip` delivers the fatal "no expected calls left" to
the sink, returns the degenerate `&http.Response{}` with a nil error —
so the caller is not blocked and sees no error — and the invocation
counter keeps its incremented value. -/
theorem roundtrip_no_calls_left (calls : Calls) (calledTimes0 : Int)
    (r : Request) (c : Call)
    (h : Calls.call calls (calledTimes0 + 1) = PanicOr.ok (c, false)) :
    RoundTrip calls calledTimes0 r = PanicOr.ok
      { calledTimes := calledTimes0 + 1,
        reports := [Report.fatalf "no expected calls left"],
        response := some emptyHTTPResponse,
        error := none } := by
  simp only [RoundTrip]
  rw [h]
  rfl

/-- Witness for C3: an exhausted (empty) sequence policy on its first
invocation. -/
theorem roundtrip_no_calls_left_witness :
    RoundTrip (Calls.sequence []) 0 demoRequest = PanicOr.ok
      { calledTimes := 1,
        reports := [Report.fatalf "no expected calls left"],
        response := some emptyHTTPResponse,
        error := none } :=
  roundtrip_no_calls_left (Calls.sequence []) 0 demoRequest Call.empty (by decide)

/-- Claim C4: the matching engine always runs all four checks — each
check's reports appear in `CompareInput`'s output whatever the other
checks produced — and on the spec's example (expected PUT `/any/targt`
with query `key=value`, body `HelloWorld!` and header
`X-My-Header: Hello`, against an actual POST `/any/target` with no
query, body `Hello World!` and no headers) exactly one mismatch is
reported per failing dimension, five in total. -/
theorem compare_input_runs_all_checks :
    (∀ (r : Request) (input : Input),
        List.Sublist (CompareMethod r.Method input.Method) (CompareInput r input)
      ∧ List.Sublist (CompareURL r.URL input.URL) (CompareInput r input)
      ∧ List.Sublist (CompareBody r.Body input.Body) (CompareInput r input)
      ∧ List.Sublist (CompareHeader r.Header input.Header) (CompareInput r input))
  ∧ CompareInput demoRequest demoInput =
      ["wrong r.Method, expected PUT, actual POST",
       "wrong url.Path, expected /any/targt, actual /any/target",
       "wrong url query values by key key, expect [value], actual []",
       "body not equal, expected HelloWorld! actual Hello World!",
       "wrong header values by key X-My-Header, expect [Hello], actual []"] := by
  constructor
  · intro r input
    refine ⟨?_, ?_, ?_, ?_⟩
    · exact ((List.sublist_append_left _ _).trans
        (List.sublist_append_left _ _)).trans (List.sublist_append_left _ _)
    · exact ((List.sublist_append_right _ _).trans
        (List.sublist_append_left _ _)).trans (List.sublist_append_left _ _)
    · exact (List.sublist_append_right _ _).trans (List.sublist_append_left _ _)
    · exact List.sublist_append_right _ _
  · decide

/-- Every report the compare-and-respond handler emits goes through
`Errorf`; `Fatalf` is never used below the structural check. -/
theorem handleCall_reports_are_errorf (r : Request) (call : Call) :
    ∀ rep ∈ (HandleCallCompareInput r call).1, ∃ m, rep = Report.errorf m := by
  intro rep hrep
  simp only [HandleCallCompareInput, List.mem_append, List.mem_map] at hrep
  rcases hrep with ⟨m, _, rfl⟩ | hrep
  · exact ⟨m, rfl⟩
  · rcases hw : (WriteResponse newRecorder call.Response).2 with _ | e
    · rw [hw] at hrep
      cases hrep
    · rw [hw] at hrep
      simp only [List.mem_singleton] at hrep
      exact ⟨e, hrep⟩

/-- Counterexample to claim C5: on an exhausted policy the fatal
"no expected calls left" is delivered to the sink as-is — the wrapping
reporter only marks `Errorf` messages — so it does not carry the
"1 call, " text the claim requires. -/
theorem fatal_message_not_marked :
    RoundTrip (Calls.static []) 0 demoRequest = PanicOr.ok
      { calledTimes := 1,
        reports := [Report.fatalf "no expected calls left"],
        response := some emptyHTTPResponse,
        error := none }
  ∧ ("no expected calls left" : String) ≠ "1 call, no expected calls left" :=
  ⟨by decide, by decide⟩

/-- Claim C5 as amended: every non-fatal message an invocation delivers
to the sink carries the "<N> call, " text for its 1-based invocation
number, while the only fatal message, "no expected calls left", is
delivered without it. -/
theorem roundtrip_call_number_marking (calls : Calls) (calledTimes0 : Int)
    (r : Request) (out : RoundTripOut)
    (h : RoundTrip calls calledTimes0 r = PanicOr.ok out) :
    ∀ rep ∈ out.reports,
      (∃ m, rep = Report.errorf (callNumberMark (calledTimes0 + 1) ++ m))
      ∨ rep = Report.fatalf "no expected calls left" := by
  intro rep hrep
  simp only [RoundTrip] at h
  cases hc : Calls.call calls (calledTimes0 + 1) with
  | panic m =>
      rw [hc] at h
      cases h
  | ok pair =>
      obtain ⟨call, found⟩ := pair
      rw [hc] at h
      cases found with
      | false =>
          simp only [Bool.not_false, if_pos] at h
          cases h
          simp only [List.mem_singleton] at hrep
          exact Or.inr hrep
      | true =>
          simp only [Bool.not_true, Bool.false_eq_true, if_false] at h
          cases hde : call.DoError with
          | some e =>
              rw [hde] at h
              cases h
              cases hrep
          | none =>
              rw [hde] at h
              cases h
              simp only [List.mem_map] at hrep
              obtain ⟨rep0, hrep0, rfl⟩ := hrep
              obtain ⟨m, rfl⟩ := handleCall_reports_are_errorf r call rep0 hrep0
              exact Or.inl ⟨m, rfl⟩

/-- The full outcome of the first invocation against the example call:
all five mismatches, marked, and the default-status response. -/
def demoMarkedOut : RoundTripOut :=
  { calledTimes := 1,
    reports :=
      [Report.errorf "1 call, wrong r.Method, expected PUT, actual POST",
       Report.errorf "1 call, wrong url.Path, expected /any/targt, actual /any/target",
       Report.errorf "1 call, wrong url query values by key key, expect [value], actual []",
       Report.errorf "1 call, body not equal, expected HelloWorld! actual Hello World!",
       Report.errorf "1 call, wrong header values by key X-My-Header, expect [Hello], actual []"],
    response := some { statusCode := 200, header := [], body := "" },
    error := none }

/-- Witness for the amended C5: the method mismatch of the example's
first invocation is delivered as an `Errorf` carrying "1 call, ". -/
theorem roundtrip_call_number_marking_witness :
    (∃ m, Report.errorf "1 call, wrong r.Method, expected PUT, actual POST"
        = Report.errorf (callNumberMark (0 + 1) ++ m))
    ∨ Report.errorf "1 call, wrong r.Method, expected PUT, actual POST"
        = Report.fatalf "no expected calls left" := by
  have h := roundtrip_call_number_marking (Calls.static [demoCall]) 0 demoRequest
    demoMarkedOut (by decide)
  exact h _ (by decide)

end Httpmock
